import Mathlib

/-!
Verification of the ecommerce backend configuration code: access-control
predicates, the Users first-admin hook, the products slug-derivation hook,
and the 20251202_023627 schema migration.

The embedding mirrors the TypeScript source: JavaScript truthiness of an
optional string (absent or empty means falsy) is `strTruthy`, truthiness of
an optional numeric id (absent or zero means falsy) is `idTruthy`, and the
request user is an `Option UserCtx` (`none` is an anonymous request).
-/

namespace Ecom

/-- The authenticated-user context passed to access predicates: an id and an
optional list of role strings (`user.roles` may be absent). -/
structure UserCtx where
  id : Option Nat
  roles : Option (List String)
deriving DecidableEq, Repr

/-- `user.roles?.includes(r)`: false when the roles list is absent. -/
def hasRole (u : UserCtx) (r : String) : Bool :=
  match u.roles with
  | none => false
  | some rs => rs.contains r

/-- JS truthiness of an optional numeric id: absent and `0` are falsy. -/
def idTruthy : Option Nat → Bool
  | none => false
  | some i => i != 0

/-- Result of a Payload access predicate: a boolean, or a query filter
(`{ customer: { equals: id } }` or `{ _status: { equals: status } }`). -/
inductive AccessResult where
  | allow
  | deny
  | filterCustomerEquals (id : Nat)
  | filterStatusEquals (status : String)
deriving DecidableEq, Repr

/-- `adminOnly`: `Boolean(user?.roles?.includes('admin'))`. -/
def adminOnly (user : Option UserCtx) : Bool :=
  match user with
  | none => false
  | some u => hasRole u "admin"

/-- `adminOnlyFieldAccess`: same body as `adminOnly`. -/
def adminOnlyFieldAccess (user : Option UserCtx) : Bool :=
  adminOnly user

/-- `adminOrCustomerOwner`: true for admins; a customer-equals filter for a
user with a truthy id; false otherwise. -/
def adminOrCustomerOwner (user : Option UserCtx) : AccessResult :=
  match user with
  | none => AccessResult.deny
  | some u =>
    if hasRole u "admin" then AccessResult.allow
    else if idTruthy u.id then AccessResult.filterCustomerEquals (u.id.getD 0)
    else AccessResult.deny

/-- `adminOrPublishedStatus`: true for admins; otherwise the
`{ _status: { equals: 'published' } }` filter (also for anonymous users). -/
def adminOrPublishedStatus (user : Option UserCtx) : AccessResult :=
  match user with
  | none => AccessResult.filterStatusEquals "published"
  | some u =>
    if hasRole u "admin" then AccessResult.allow
    else AccessResult.filterStatusEquals "published"

/-- `customerOnlyFieldAccess`: `Boolean(user?.roles?.includes('customer'))`. -/
def customerOnlyFieldAccess (user : Option UserCtx) : Bool :=
  match user with
  | none => false
  | some u => hasRole u "customer"

/-- C2: `adminOnly` returns true iff the request carries a user whose roles
list exists and contains `'admin'`; in every other case it returns false. -/
theorem adminOnly_iff_admin_role (user : Option UserCtx) :
    adminOnly user = true ↔
      ∃ u rs, user = some u ∧ u.roles = some rs ∧ "admin" ∈ rs := by
  constructor
  · intro h
    match user with
    | none => simp [adminOnly] at h
    | some u =>
      match hu : u.roles with
      | none => simp [adminOnly, hasRole, hu] at h
      | some rs =>
        refine ⟨u, rs, rfl, hu, ?_⟩
        simpa [adminOnly, hasRole, hu, List.contains_iff_exists_mem_beq] using h
  · rintro ⟨u, rs, rfl, hu, hmem⟩
    simp [adminOnly, hasRole, hu]
    exact hmem

/-- Concrete instance of `adminOnly_iff_admin_role`. -/
theorem adminOnly_iff_admin_role_witness :
    adminOnly (some ⟨some 1, some ["customer", "admin"]⟩) = true ↔
      ∃ u rs, (some (⟨some 1, some ["customer", "admin"]⟩ : UserCtx)) = some u ∧
        u.roles = some rs ∧ "admin" ∈ rs :=
  adminOnly_iff_admin_role (some ⟨some 1, some ["customer", "admin"]⟩)

/-- C3: `adminOrCustomerOwner` allows any admin user, returns the
customer-equals filter keyed to the caller's id for any other authenticated
user (truthy id), and denies an anonymous caller. -/
theorem adminOrCustomerOwner_spec :
    (∀ u : UserCtx, hasRole u "admin" = true →
      adminOrCustomerOwner (some u) = AccessResult.allow) ∧
    (∀ (u : UserCtx) (i : Nat), hasRole u "admin" = false → u.id = some i →
      i ≠ 0 →
      adminOrCustomerOwner (some u) = AccessResult.filterCustomerEquals i) ∧
    adminOrCustomerOwner none = AccessResult.deny := by
  refine ⟨fun u h => by simp [adminOrCustomerOwner, h], ?_, rfl⟩
  intro u i hadm hid hi
  simp [adminOrCustomerOwner, hadm, idTruthy, hid, hi]

/-- Concrete instance of `adminOrCustomerOwner_spec`: an admin is allowed, a
customer with id 7 gets the ownership filter, anonymous is denied. -/
theorem adminOrCustomerOwner_spec_witness :
    adminOrCustomerOwner (some ⟨some 1, some ["admin"]⟩) = AccessResult.allow ∧
    adminOrCustomerOwner (some ⟨some 7, some ["customer"]⟩) =
      AccessResult.filterCustomerEquals 7 ∧
    adminOrCustomerOwner none = AccessResult.deny :=
  ⟨adminOrCustomerOwner_spec.1 ⟨some 1, some ["admin"]⟩ (by decide),
   adminOrCustomerOwner_spec.2.1 ⟨some 7, some ["customer"]⟩ 7 (by decide) rfl
     (by decide),
   adminOrCustomerOwner_spec.2.2⟩

/-- C5: `adminOrPublishedStatus` allows any admin user and returns the
published-status filter for every non-admin user and for anonymous callers. -/
theorem adminOrPublishedStatus_spec :
    (∀ u : UserCtx, hasRole u "admin" = true →
      adminOrPublishedStatus (some u) = AccessResult.allow) ∧
    (∀ u : UserCtx, hasRole u "admin" = false →
      adminOrPublishedStatus (some u) =
        AccessResult.filterStatusEquals "published") ∧
    adminOrPublishedStatus none = AccessResult.filterStatusEquals "published" := by
  refine ⟨fun u h => by simp [adminOrPublishedStatus, h],
    fun u h => by simp [adminOrPublishedStatus, h], rfl⟩

/-- Concrete instance of `adminOrPublishedStatus_spec`. -/
theorem adminOrPublishedStatus_spec_witness :
    adminOrPublishedStatus (some ⟨some 1, some ["admin"]⟩) = AccessResult.allow ∧
    adminOrPublishedStatus (some ⟨some 7, some ["customer"]⟩) =
      AccessResult.filterStatusEquals "published" ∧
    adminOrPublishedStatus none = AccessResult.filterStatusEquals "published" :=
  ⟨adminOrPublishedStatus_spec.1 ⟨some 1, some ["admin"]⟩ (by decide),
   adminOrPublishedStatus_spec.2.1 ⟨some 7, some ["customer"]⟩ (by decide),
   adminOrPublishedStatus_spec.2.2⟩

/-- C10: `customerOnlyFieldAccess` is true iff the user's roles contain
`'customer'`; in particular a pure-admin user is denied by this predicate. -/
theorem customerOnlyFieldAccess_spec :
    (∀ user : Option UserCtx,
      customerOnlyFieldAccess user = true ↔
        ∃ u rs, user = some u ∧ u.roles = some rs ∧ "customer" ∈ rs) ∧
    (∀ i : Option Nat,
      customerOnlyFieldAccess (some ⟨i, some ["admin"]⟩) = false) := by
  constructor
  · intro user
    constructor
    · intro h
      match user with
      | none => simp [customerOnlyFieldAccess] at h
      | some u =>
        match hu : u.roles with
        | none => simp [customerOnlyFieldAccess, hasRole, hu] at h
        | some rs =>
          refine ⟨u, rs, rfl, hu, ?_⟩
          simpa [customerOnlyFieldAccess, hasRole, hu,
            List.contains_iff_exists_mem_beq] using h
    · rintro ⟨u, rs, rfl, hu, hmem⟩
      simp [customerOnlyFieldAccess, hasRole, hu]
      exact hmem
  · intro i
    simp [customerOnlyFieldAccess, hasRole]

/-- Concrete instance of `customerOnlyFieldAccess_spec`: an admin-only user is
denied by the customer field predicate. -/
theorem customerOnlyFieldAccess_spec_witness :
    customerOnlyFieldAccess (some ⟨some 1, some ["admin"]⟩) = false :=
  customerOnlyFieldAccess_spec.2 (some 1)

/-! ## Users collection: first-user admin promotion -/

/-- The document lifecycle operation passed to collection hooks. -/
inductive Operation where
  | create
  | update
  | delete
  | read
deriving DecidableEq, Repr

/-- The mutable user data seen by the Users `beforeChange` hook; only the
`roles` field is touched by this repository's code. -/
structure UserDataRec where
  roles : Option (List String)
deriving DecidableEq, Repr

/-- The Users `beforeChange` hook: on `create`, counts existing users
(`existingUserCount` stands for `req.payload.count(...).totalDocs`) and
force-sets `data.roles = ['admin']` when the count is zero; otherwise returns
the data untouched. -/
def usersBeforeChange (operation : Operation) (existingUserCount : Nat)
    (data : UserDataRec) : UserDataRec :=
  if operation = Operation.create ∧ existingUserCount = 0 then
    { data with roles := some ["admin"] }
  else data

/-- Modelled from the spec: the framework applies the `roles` field's declared
`defaultValue` (`['customer']` in the Users collection config) when no roles
value was supplied. The default-application step itself lives in the host
framework, not in this repository. -/
def applyRolesDefault (data : UserDataRec) : UserDataRec :=
  match data.roles with
  | none => { data with roles := some ["customer"] }
  | some _ => data

/-- C4: on create with zero existing users the hook force-sets roles to
exactly `['admin']` regardless of the input; with a non-zero count it leaves
the data unchanged, so a second user created with no explicit roles keeps the
field default `['customer']`. -/
theorem first_user_admin_promotion :
    (∀ data : UserDataRec,
      usersBeforeChange Operation.create 0 data = ⟨some ["admin"]⟩) ∧
    (∀ (count : Nat) (data : UserDataRec), count ≠ 0 →
      usersBeforeChange Operation.create count data = data) ∧
    (∀ count : Nat, count ≠ 0 →
      applyRolesDefault (usersBeforeChange Operation.create count ⟨none⟩) =
        ⟨some ["customer"]⟩) := by
  refine ⟨fun data => by simp [usersBeforeChange], ?_, ?_⟩
  · intro count data hc
    simp [usersBeforeChange, hc]
  · intro count hc
    simp [usersBeforeChange, hc, applyRolesDefault]

/-- Concrete instance of `first_user_admin_promotion`: a first user supplying
`['customer']` still becomes admin; a second user with no roles gets the
default `['customer']`. -/
theorem first_user_admin_promotion_witness :
    usersBeforeChange Operation.create 0 ⟨some ["customer"]⟩ =
      ⟨some ["admin"]⟩ ∧
    usersBeforeChange Operation.create 1 ⟨some ["customer"]⟩ =
      ⟨some ["customer"]⟩ ∧
    applyRolesDefault (usersBeforeChange Operation.create 1 ⟨none⟩) =
      ⟨some ["customer"]⟩ :=
  ⟨first_user_admin_promotion.1 ⟨some ["customer"]⟩,
   first_user_admin_promotion.2.1 1 ⟨some ["customer"]⟩ (by decide),
   first_user_admin_promotion.2.2 1 (by decide)⟩

/-! ## Products collection: slug derivation

`title.toLowerCase().replace(/[^a-z0-9]+/g, '-').replace(/^-|-$/g, '')`
embedded at the character-list level: `collapseAux` replaces each maximal run
of non-`[a-z0-9]` characters with a single hyphen (the boolean argument says
whether we are inside such a run), and the final regex removes the (at most
one) leading hyphen and the (at most one) trailing hyphen. -/

/-- Is `c` in `[a-z0-9]`? -/
def isSlugChar (c : Char) : Bool :=
  (('a' ≤ c) && (c ≤ 'z')) || (('0' ≤ c) && (c ≤ '9'))

/-- `replace(/[^a-z0-9]+/g, '-')`: a run's first character emits one hyphen,
its later characters emit nothing. `inRun` records whether the previous
character was part of a non-`[a-z0-9]` run. -/
def collapseAux (inRun : Bool) : List Char → List Char
  | [] => []
  | c :: rest =>
    if isSlugChar c then c :: collapseAux false rest
    else if inRun then collapseAux true rest
    else '-' :: collapseAux true rest

/-- `replace(/^-|-$/g, '')` on the leading side: one leading hyphen removed. -/
def dropLeadHyphen : List Char → List Char
  | [] => []
  | c :: rest => if c = '-' then rest else c :: rest

/-- `replace(/^-|-$/g, '')` on the trailing side: one trailing hyphen
removed. -/
def dropTrailHyphen : List Char → List Char
  | [] => []
  | [c] => if c = '-' then [] else [c]
  | c :: d :: rest => c :: dropTrailHyphen (d :: rest)

/-- The slug derived from a title, at the character-list level. -/
def slugChars (title : List Char) : List Char :=
  dropTrailHyphen (dropLeadHyphen (collapseAux false (title.map Char.toLower)))

/-- The slug derived from a title:
`title.toLowerCase().replace(/[^a-z0-9]+/g, '-').replace(/^-|-$/g, '')`. -/
def slugify (title : String) : String :=
  String.mk (slugChars title.data)

example : slugify "Hello, World!" = "hello-world" := by decide
example : slugify "  --Fancy  Product #5--  " = "fancy-product-5" := by decide
example : slugify "!!!" = "" := by decide
example : slugify "" = "" := by decide

/-- No two adjacent hyphens anywhere in the list. -/
def noDouble : List Char → Bool
  | a :: b :: rest => (!(a == '-' && b == '-')) && noDouble (b :: rest)
  | _ => true

lemma isSlugChar_ne_hyphen {c : Char} (h : isSlugChar c = true) : c ≠ '-' := by
  rintro rfl
  simp [isSlugChar] at h

lemma collapseAux_all (b : Bool) (l : List Char) :
    (collapseAux b l).all (fun c => isSlugChar c || c == '-') = true := by
  induction l generalizing b with
  | nil => simp [collapseAux]
  | cons c rest ih =>
    by_cases hc : isSlugChar c = true
    · simp [collapseAux, hc, ih false]
    · by_cases hb : b
      · simpa [collapseAux, hc, hb] using ih true
      · simp [collapseAux, hc, hb, ih true]

lemma collapseAux_true_head (l : List Char) :
    (collapseAux true l).head? ≠ some '-' := by
  induction l with
  | nil => simp [collapseAux]
  | cons c rest ih =>
    by_cases hc : isSlugChar c = true
    · simp [collapseAux, hc]
      exact isSlugChar_ne_hyphen hc
    · simpa [collapseAux, hc] using ih

lemma noDouble_cons_of_ne {a : Char} (ha : a ≠ '-') (t : List Char) :
    noDouble (a :: t) = noDouble t := by
  cases t with
  | nil => simp [noDouble]
  | cons b t' => simp [noDouble, ha]

lemma noDouble_cons_hyphen {t : List Char} (hh : t.head? ≠ some '-')
    (ht : noDouble t = true) : noDouble ('-' :: t) = true := by
  cases t with
  | nil => simp [noDouble]
  | cons b t' =>
    have hb : b ≠ '-' := by
      intro h
      exact hh (by simp [h])
    simpa [noDouble, hb] using ht

lemma noDouble_tail {a : Char} {t : List Char}
    (h : noDouble (a :: t) = true) : noDouble t = true := by
  cases t with
  | nil => simp [noDouble]
  | cons b t' =>
    simp only [noDouble, Bool.and_eq_true] at h
    exact h.2

lemma collapseAux_noDouble (b : Bool) (l : List Char) :
    noDouble (collapseAux b l) = true := by
  induction l generalizing b with
  | nil => simp [collapseAux, noDouble]
  | cons c rest ih =>
    by_cases hc : isSlugChar c = true
    · rw [collapseAux]
      simp only [hc, if_pos]
      rw [noDouble_cons_of_ne (isSlugChar_ne_hyphen hc)]
      exact ih false
    · by_cases hb : b
      · simpa [collapseAux, hc, hb] using ih true
      · simp only [collapseAux, hc, hb]
        simp only [if_false, Bool.false_eq_true, if_neg, not_false_iff]
        exact noDouble_cons_hyphen (collapseAux_true_head rest) (ih true)

lemma dropLeadHyphen_all {p : Char → Bool} {l : List Char}
    (h : l.all p = true) : (dropLeadHyphen l).all p = true := by
  cases l with
  | nil => simp [dropLeadHyphen]
  | cons c rest =>
    by_cases hc : c = '-'
    · simp only [List.all_cons, Bool.and_eq_true] at h
      simpa [dropLeadHyphen, hc] using h.2
    · simpa [dropLeadHyphen, hc] using h

lemma dropLeadHyphen_noDouble {l : List Char} (h : noDouble l = true) :
    noDouble (dropLeadHyphen l) = true := by
  cases l with
  | nil => simpa [dropLeadHyphen] using h
  | cons c rest =>
    by_cases hc : c = '-'
    · simpa [dropLeadHyphen, hc] using noDouble_tail h
    · simpa [dropLeadHyphen, hc] using h

lemma dropLeadHyphen_head {l : List Char} (h : noDouble l = true) :
    (dropLeadHyphen l).head? ≠ some '-' := by
  cases l with
  | nil => simp [dropLeadHyphen]
  | cons c rest =>
    by_cases hc : c = '-'
    · subst hc
      cases rest with
      | nil => simp [dropLeadHyphen]
      | cons b t =>
        simp only [noDouble, Bool.and_eq_true, Bool.not_eq_true',
          Bool.and_eq_false_iff] at h
        have hb : b ≠ '-' := by
          rcases h.1 with h1 | h1
          · simp at h1
          · exact fun hb => by simp [hb] at h1
        simp [dropLeadHyphen, hb]
    · simp [dropLeadHyphen, hc]

lemma dropTrailHyphen_all {p : Char → Bool} {l : List Char}
    (h : l.all p = true) : (dropTrailHyphen l).all p = true := by
  induction l with
  | nil => simp [dropTrailHyphen]
  | cons c rest ih =>
    cases rest with
    | nil =>
      simp only [List.all_cons, Bool.and_eq_true] at h
      by_cases hc : c = '-' <;> simp [dropTrailHyphen, hc, h.1]
    | cons d t =>
      simp only [List.all_cons, Bool.and_eq_true] at h
      have := ih (by simp [h.2.1, h.2.2])
      simp [dropTrailHyphen, h.1, this]

lemma dropTrailHyphen_head (l : List Char) :
    (dropTrailHyphen l).head? = l.head? ∨ dropTrailHyphen l = [] := by
  cases l with
  | nil => exact Or.inr rfl
  | cons c rest =>
    cases rest with
    | nil =>
      by_cases hc : c = '-'
      · exact Or.inr (by simp [dropTrailHyphen, hc])
      · exact Or.inl (by simp [dropTrailHyphen, hc])
    | cons d t => exact Or.inl (by simp [dropTrailHyphen])

lemma dropTrailHyphen_eq_nil {d : Char} {t : List Char}
    (h : dropTrailHyphen (d :: t) = []) : d = '-' ∧ t = [] := by
  cases t with
  | nil =>
    by_cases hd : d = '-'
    · exact ⟨hd, rfl⟩
    · simp [dropTrailHyphen, hd] at h
  | cons e t' => simp [dropTrailHyphen] at h

lemma dropTrailHyphen_noDouble {l : List Char} (h : noDouble l = true) :
    noDouble (dropTrailHyphen l) = true := by
  induction l with
  | nil => simpa [dropTrailHyphen] using h
  | cons c rest ih =>
    cases rest with
    | nil =>
      by_cases hc : c = '-' <;> simp [dropTrailHyphen, hc, noDouble]
    | cons d t =>
      have hrest : noDouble (d :: t) = true := noDouble_tail h
      have ihr := ih hrest
      rcases hd : dropTrailHyphen (d :: t) with _ | ⟨x, xs⟩
      · simp [dropTrailHyphen, hd, noDouble]
      · have hx : x = d := by
          rcases dropTrailHyphen_head (d :: t) with hh | hh
          · rw [hd] at hh
            simpa using hh
          · rw [hd] at hh
            cases hh
        subst hx
        simp only [noDouble, Bool.and_eq_true] at h
        simp only [dropTrailHyphen, hd, noDouble, Bool.and_eq_true]
        exact ⟨h.1, by simpa [hd] using ihr⟩

lemma dropTrailHyphen_last {l : List Char} (h : noDouble l = true) :
    (dropTrailHyphen l).getLast? ≠ some '-' := by
  induction l with
  | nil => simp [dropTrailHyphen]
  | cons c rest ih =>
    cases rest with
    | nil =>
      by_cases hc : c = '-' <;> simp [dropTrailHyphen, hc]
    | cons d t =>
      have hrest : noDouble (d :: t) = true := noDouble_tail h
      rcases hd : dropTrailHyphen (d :: t) with _ | ⟨x, xs⟩
      · obtain ⟨hd', ht⟩ := dropTrailHyphen_eq_nil hd
        subst hd' ht
        simp only [noDouble, Bool.and_eq_true, Bool.not_eq_true',
          Bool.and_eq_false_iff] at h
        have hc : c ≠ '-' := by
          rcases h.1 with h1 | h1
          · exact fun hc => by simp [hc] at h1
          · simp at h1
        simp [dropTrailHyphen, hd, hc]
      · have := ih hrest
        rw [hd] at this
        simpa [dropTrailHyphen, hd, List.getLast?_cons_cons] using this

lemma dropTrailHyphen_head_ne {l : List Char} (h : l.head? ≠ some '-') :
    (dropTrailHyphen l).head? ≠ some '-' := by
  rcases dropTrailHyphen_head l with hh | hh
  · rw [hh]
    exact h
  · simp [hh]

/-- C1: for every title, the derived slug consists only of lowercase
`[a-z0-9]` characters and hyphens, has no two adjacent hyphens, and neither
starts nor ends with a hyphen. -/
theorem slug_wellformed (title : String) :
    (slugify title).data.all (fun c => isSlugChar c || c == '-') = true ∧
    noDouble (slugify title).data = true ∧
    (slugify title).data.head? ≠ some '-' ∧
    (slugify title).data.getLast? ≠ some '-' := by
  have hcol : noDouble (collapseAux false (title.data.map Char.toLower)) = true :=
    collapseAux_noDouble false _
  have hlead : noDouble (dropLeadHyphen
      (collapseAux false (title.data.map Char.toLower))) = true :=
    dropLeadHyphen_noDouble hcol
  refine ⟨?_, ?_, ?_, ?_⟩
  · exact dropTrailHyphen_all (dropLeadHyphen_all (collapseAux_all false _))
  · exact dropTrailHyphen_noDouble hlead
  · exact dropTrailHyphen_head_ne (dropLeadHyphen_head hcol)
  · exact dropTrailHyphen_last hlead

/-- Concrete instance of `slug_wellformed` at the title `" --Mixed CASE 42!_ "`. -/
theorem slug_wellformed_witness :
    (slugify " --Mixed CASE 42!_ ").data.all
      (fun c => isSlugChar c || c == '-') = true ∧
    noDouble (slugify " --Mixed CASE 42!_ ").data = true ∧
    (slugify " --Mixed CASE 42!_ ").data.head? ≠ some '-' ∧
    (slugify " --Mixed CASE 42!_ ").data.getLast? ≠ some '-' :=
  slug_wellformed " --Mixed CASE 42!_ "

/-! ## Products collection: the beforeValidate hook -/

/-- JS truthiness of an optional string field: absent and `''` are falsy. -/
def strTruthy : Option String → Bool
  | none => false
  | some s => !(s == "")

/-- The product data seen by the hook; `sku` stands for the fields the hook
never touches. -/
structure ProductData where
  title : Option String
  slug : Option String
  sku : Option String
deriving DecidableEq, Repr

/-- The products `beforeValidate` hook: on create or update, if the title is
truthy and the slug is falsy, sets `data.slug` to the slug derived from the
title; otherwise returns the data untouched (also when `data` is absent). -/
def productBeforeValidate (operation : Operation) (data : Option ProductData) :
    Option ProductData :=
  match data with
  | none => none
  | some d =>
    if operation = Operation.create ∨ operation = Operation.update then
      if strTruthy d.title && !(strTruthy d.slug) then
        some { d with slug := some (slugify (d.title.getD "")) }
      else some d
    else some d

example :
    productBeforeValidate Operation.create
      (some ⟨some "Hello, World!", none, some "SKU1"⟩) =
    some ⟨some "Hello, World!", some "hello-world", some "SKU1"⟩ := by decide

/-- C7: the hook is idempotent — run a second time on its own output (same
title, slug now holding the derived value) it changes nothing, in particular
the slug is unchanged. -/
theorem slug_hook_idempotent (operation : Operation)
    (data : Option ProductData) :
    productBeforeValidate operation (productBeforeValidate operation data) =
      productBeforeValidate operation data := by
  match data with
  | none => rfl
  | some d =>
    by_cases hop : operation = Operation.create ∨ operation = Operation.update
    · by_cases hfire : (strTruthy d.title && !(strTruthy d.slug)) = true
      · simp only [productBeforeValidate, hop, if_true, hfire, if_pos]
        by_cases hslug : strTruthy (some (slugify (d.title.getD ""))) = true
        · simp [hslug, Bool.and_eq_true] at *
        · split <;> rfl
      · simp [productBeforeValidate, hop, hfire]
    · simp [productBeforeValidate, hop]

/-- Concrete instance of `slug_hook_idempotent`. -/
theorem slug_hook_idempotent_witness :
    productBeforeValidate Operation.create
        (productBeforeValidate Operation.create
          (some ⟨some "My Product!", none, none⟩)) =
      productBeforeValidate Operation.create
        (some ⟨some "My Product!", none, none⟩) :=
  slug_hook_idempotent Operation.create (some ⟨some "My Product!", none, none⟩)

/-- C8 counterexample: the claim "a supplied slug is returned unchanged" fails
when the supplied slug is the empty string: `''` is falsy, so the hook treats
it as absent and overwrites it with the derived slug. -/
theorem slug_supplied_empty_overwritten :
    productBeforeValidate Operation.create
        (some ⟨some "x", some "", none⟩) ≠
      some ⟨some "x", some "", none⟩ := by decide

/-- C8 amended: on any operation, an input whose supplied slug is non-empty is
returned unchanged, and an input whose title is absent or empty is returned
unchanged. -/
theorem slug_hook_frame (operation : Operation) (d : ProductData) :
    (strTruthy d.slug = true →
      productBeforeValidate operation (some d) = some d) ∧
    (strTruthy d.title = false →
      productBeforeValidate operation (some d) = some d) := by
  constructor
  · intro hslug
    simp [productBeforeValidate, hslug]
  · intro htitle
    simp [productBeforeValidate, htitle]

/-- Concrete instance of `slug_hook_frame`: an input with a slug `'kept'` and
no title is returned unchanged on create. -/
theorem slug_hook_frame_witness :
    productBeforeValidate Operation.create
        (some ⟨none, some "kept", some "S"⟩) =
      some ⟨none, some "kept", some "S"⟩ :=
  (slug_hook_frame Operation.create ⟨none, some "kept", some "S"⟩).1 (by decide)

/-- C9: a non-empty title whose lowercased form has no `[a-z0-9]` character
gets the empty string assigned as its slug — the slug field is set, not left
absent. -/
theorem punct_title_empty_slug (t : String) (sku : Option String)
    (h1 : t ≠ "")
    (h2 : (t.data.map Char.toLower).all (fun c => !(isSlugChar c)) = true) :
    productBeforeValidate Operation.create (some ⟨some t, none, sku⟩) =
      some ⟨some t, some "", sku⟩ := by
  have hcollapse : ∀ l : List Char, l.all (fun c => !(isSlugChar c)) = true →
      collapseAux true l = [] := by
    intro l hl
    induction l with
    | nil => rfl
    | cons c rest ih =>
      simp only [List.all_cons, Bool.and_eq_true, Bool.not_eq_true'] at hl
      simp only [collapseAux, hl.1, Bool.false_eq_true, if_false, if_true]
      exact ih (by simp [hl.2])
  have hslug : slugify t = "" := by
    unfold slugify slugChars
    rcases hd : t.data.map Char.toLower with _ | ⟨c, rest⟩
    · simp [collapseAux, dropLeadHyphen, dropTrailHyphen]
    · rw [hd] at h2
      simp only [List.all_cons, Bool.and_eq_true, Bool.not_eq_true'] at h2
      have hrest : collapseAux true rest = [] :=
        hcollapse rest (by simp [h2.2])
      simp [collapseAux, h2.1, hrest, dropLeadHyphen, dropTrailHyphen]
  simp [productBeforeValidate, strTruthy, h1, hslug]

/-- Concrete instance of `punct_title_empty_slug` at the title `"!!!"`. -/
theorem punct_title_empty_slug_witness :
    productBeforeValidate Operation.create (some ⟨some "!!!", none, none⟩) =
      some ⟨some "!!!", some "", none⟩ :=
  punct_title_empty_slug "!!!" none (by decide) (by decide)

/-! ## Migration 20251202_023627

The physical schema is modelled as the lists of its tables, its columns
(table, column) and its indexes (name, table, unique flag). Each SQL
statement of the migration becomes one `DDL` value; dropping a table also
drops its columns and its indexes, as SQLite does. -/

/-- A snapshot of the physical SQLite schema. -/
structure Schema where
  tables : List String
  columns : List (String × String)
  indexes : List (String × String × Bool)
deriving DecidableEq, Repr

/-- The schema-definition statements the migration scripts use. -/
inductive DDL where
  | createTable (name : String) (cols : List String)
  | createIndex (name : String) (table : String) (unique : Bool)
  | addColumn (table : String) (col : String)
  | dropTable (name : String)
  | dropIndex (name : String)
  | dropColumn (table : String) (col : String)
deriving DecidableEq, Repr

/-- Effect of one statement on the schema; `DROP TABLE` removes the table's
columns and indexes with it. -/
def applyDDL (s : Schema) : DDL → Schema
  | DDL.createTable n cols =>
    { s with tables := n :: s.tables,
             columns := cols.map (fun c => (n, c)) ++ s.columns }
  | DDL.createIndex n t u => { s with indexes := (n, t, u) :: s.indexes }
  | DDL.addColumn t c => { s with columns := (t, c) :: s.columns }
  | DDL.dropTable n =>
    { s with tables := s.tables.filter (fun t => t != n),
             columns := s.columns.filter (fun p => p.1 != n),
             indexes := s.indexes.filter (fun ix => ix.2.1 != n) }
  | DDL.dropIndex n =>
    { s with indexes := s.indexes.filter (fun ix => ix.1 != n) }
  | DDL.dropColumn t c =>
    { s with columns := s.columns.filter (fun p => !(p.1 == t && p.2 == c)) }

/-- The statement list of `up`, in source order. -/
def upMigration : List DDL :=
  [DDL.createTable "products_gallery" ["_order", "_parent_id", "id", "image_id"],
   DDL.createIndex "products_gallery_order_idx" "products_gallery" false,
   DDL.createIndex "products_gallery_parent_id_idx" "products_gallery" false,
   DDL.createIndex "products_gallery_image_idx" "products_gallery" false,
   DDL.createTable "_products_v_version_gallery"
     ["_order", "_parent_id", "id", "image_id", "_uuid"],
   DDL.createIndex "_products_v_version_gallery_order_idx"
     "_products_v_version_gallery" false,
   DDL.createIndex "_products_v_version_gallery_parent_id_idx"
     "_products_v_version_gallery" false,
   DDL.createIndex "_products_v_version_gallery_image_idx"
     "_products_v_version_gallery" false,
   DDL.addColumn "products" "title",
   DDL.addColumn "products" "slug",
   DDL.addColumn "products" "sku",
   DDL.addColumn "products" "copy",
   DDL.createIndex "products_slug_idx" "products" true,
   DDL.addColumn "_products_v" "version_title",
   DDL.addColumn "_products_v" "version_slug",
   DDL.addColumn "_products_v" "version_sku",
   DDL.addColumn "_products_v" "version_copy",
   DDL.createIndex "_products_v_version_version_slug_idx" "_products_v" false]

/-- The statement list of `down`, in source order. -/
def downMigration : List DDL :=
  [DDL.dropTable "products_gallery",
   DDL.dropTable "_products_v_version_gallery",
   DDL.dropIndex "products_slug_idx",
   DDL.dropColumn "products" "title",
   DDL.dropColumn "products" "slug",
   DDL.dropColumn "products" "sku",
   DDL.dropColumn "products" "copy",
   DDL.dropIndex "_products_v_version_version_slug_idx",
   DDL.dropColumn "_products_v" "version_title",
   DDL.dropColumn "_products_v" "version_slug",
   DDL.dropColumn "_products_v" "version_sku",
   DDL.dropColumn "_products_v" "version_copy"]

/-- Run a migration script: apply its statements in order. -/
def runMigration (ops : List DDL) (s : Schema) : Schema :=
  ops.foldl applyDDL s

example :
    runMigration downMigration (runMigration upMigration
      ⟨["products", "_products_v", "media"],
       [("products", "id"), ("_products_v", "id"), ("media", "id")],
       [("media_idx", "media", false)]⟩) =
    ⟨["products", "_products_v", "media"],
     [("products", "id"), ("_products_v", "id"), ("media", "id")],
     [("media_idx", "media", false)]⟩ := by decide

/-- C6: applied to a schema that does not already contain any of the objects
the migration introduces (no gallery tables, none of the added product
columns, neither of the two named indexes, and no columns or indexes attached
to the gallery tables), running `down` immediately after `up` restores the
schema exactly: everything `up` created is removed and nothing else changes. -/
theorem migration_down_undoes_up (S : Schema)
    (htab : S.tables.all (fun t => t != "products_gallery" &&
      t != "_products_v_version_gallery") = true)
    (hcol : S.columns.all (fun p =>
      p.1 != "products_gallery" && p.1 != "_products_v_version_gallery" &&
      !(p.1 == "products" && (p.2 == "title" || p.2 == "slug" ||
        p.2 == "sku" || p.2 == "copy")) &&
      !(p.1 == "_products_v" && (p.2 == "version_title" ||
        p.2 == "version_slug" || p.2 == "version_sku" ||
        p.2 == "version_copy"))) = true)
    (hidx : S.indexes.all (fun ix =>
      ix.2.1 != "products_gallery" &&
      ix.2.1 != "_products_v_version_gallery" &&
      ix.1 != "products_slug_idx" &&
      ix.1 != "_products_v_version_version_slug_idx") = true) :
    runMigration downMigration (runMigration upMigration S) = S := by
  obtain ⟨tabs, cols, idxs⟩ := S
  simp only [List.all_eq_true] at htab hcol hidx
  simp only [runMigration, upMigration, downMigration, List.foldl_cons,
    List.foldl_nil, applyDDL, List.map_cons, List.map_nil]
  simp only [Schema.mk.injEq]
  refine ⟨?_, ?_, ?_⟩ <;> simp [List.filter_cons]
  · intro a ha
    have h := htab a ha
    simp only [Bool.and_eq_true, bne_iff_ne, ne_eq] at h
    tauto
  · intro a b hab
    have h := hcol (a, b) hab
    simp only [Bool.and_eq_true, Bool.not_eq_true', bne_iff_ne, ne_eq,
      Bool.and_eq_false_iff, Bool.or_eq_false_iff, beq_eq_false_iff_ne,
      beq_iff_eq] at h
    tauto
  · intro a b
    constructor <;> intro h <;>
      [have h' := hidx (a, b, false) h; have h' := hidx (a, b, true) h] <;>
      simp only [Bool.and_eq_true, bne_iff_ne, ne_eq] at h' <;> tauto

/-- Concrete instance of `migration_down_undoes_up` on a small prior schema. -/
theorem migration_down_undoes_up_witness :
    runMigration downMigration (runMigration upMigration
      ⟨["products", "_products_v", "media"],
       [("products", "id"), ("_products_v", "id"), ("media", "id")],
       [("media_idx", "media", false)]⟩) =
    ⟨["products", "_products_v", "media"],
     [("products", "id"), ("_products_v", "id"), ("media", "id")],
     [("media_idx", "media", false)]⟩ :=
  migration_down_undoes_up
    ⟨["products", "_products_v", "media"],
     [("products", "id"), ("_products_v", "id"), ("media", "id")],
     [("media_idx", "media", false)]⟩
    (by decide) (by decide) (by decide)

end Ecom
